import Mathlib

/-!
Verification of the `cache_response` persistent memoization cache
(`src/lib.rs`).

The repository stores `(key, value)` rows in a single SQLite table
`cached (key TEXT PRIMARY KEY, value BLOB)` and exposes one operation,
`ResponseCache::get`, which returns the stored bytes on a hit and on a miss
drives the caller-supplied fetch future, inserts the produced bytes, and
returns them.  We embed the table as a list of rows, the storage engine's
fallible steps as injectable failure flags, and `get` as a pure function
returning the call's outcome, the resulting table, and the number of times
the fetch strategy was driven.
-/

namespace CacheResponse

/-- A byte, one element of a Rust `Vec<u8>` / SQLite `BLOB`. -/
abbrev Byte := Fin 256

/-- An opaque byte sequence (`Vec<u8>`), stored verbatim. -/
abbrev Bytes := List Byte

/-- One row of the `cached` table: `key TEXT PRIMARY KEY, value BLOB`. -/
structure Row where
  key : String
  value : Bytes
deriving DecidableEq

/-- The `cached` table of one SQLite database file. -/
structure Storage where
  rows : List Row
deriving DecidableEq

/-- The empty table, as created by `CREATE TABLE` on a fresh file. -/
def Storage.empty : Storage := ⟨[]⟩

/-- `SELECT value FROM cached WHERE key = (?1)` — point lookup by exact key
(src/lib.rs lines 29-32): the value of the first row whose key matches. -/
def lookup (s : Storage) (k : String) : Option Bytes :=
  (s.rows.find? fun r => r.key == k).map Row.value

/-- Whether `key` already has a row, i.e. whether
`INSERT INTO cached VALUES((?1), (?2))` would violate the `PRIMARY KEY`
uniqueness constraint. -/
def keyPresent (s : Storage) (k : String) : Bool :=
  (s.rows.find? fun r => r.key == k).isSome

/-- `INSERT INTO cached VALUES((?1), (?2))` (src/lib.rs lines 39-42): appends
a new row, or fails (`none`) when the `PRIMARY KEY` constraint rejects a
duplicate key. -/
def insert (s : Storage) (k : String) (v : Bytes) : Option Storage :=
  if keyPresent s k then none else some ⟨s.rows ++ [⟨k, v⟩]⟩

/-- The failure kinds one `get` or `new` call can surface.  The Rust code
returns `eyre::Result`, which erases concrete error types; the constructors
below name the distinct failure sites. -/
inductive CacheError where
  | openFailure : CacheError
  | schemaFailure : CacheError
  | prepareFailure : CacheError
  | rowStepFailure : CacheError
  | columnFailure : CacheError
  | fetchFailure (e : String) : CacheError
  | uniqueViolation : CacheError
  | insertIoFailure : CacheError
deriving DecidableEq

/-- Outcome of one `get` call: Rust's `Ok`/`Err`, plus the abort caused by
the `.unwrap()` on the query call at src/lib.rs line 31, which panics instead
of returning an error. -/
inductive GetOutcome where
  | ok (v : Bytes)
  | err (e : CacheError)
  | panicked
deriving DecidableEq

/-- Injectable failures of the storage engine during one `get` call, one flag
per fallible storage step in `ResponseCache::get`. -/
structure SqlEnv where
  prepareFails : Bool
  queryBindFails : Bool
  rowStepFails : Bool
  columnFails : Bool
  insertIoFails : Bool
deriving DecidableEq

/-- A storage engine in which no internal step fails. -/
def SqlEnv.reliable : SqlEnv := ⟨false, false, false, false, false⟩

/-- A storage engine whose only failure is an I/O failure of the `INSERT`. -/
def SqlEnv.insertIoOnly : SqlEnv := ⟨false, false, false, false, true⟩

/-- A storage engine whose only failure is in binding/running the `SELECT`
(the call the code unwraps at src/lib.rs line 31). -/
def SqlEnv.queryBindOnly : SqlEnv := ⟨false, true, false, false, false⟩

/-- `ResponseCache::get` (src/lib.rs lines 22-47), step by step:
prepare the `SELECT` (`?`), bind and run it (`.unwrap()` — a failure here
panics the process instead of returning), step to the first row (`?`);
on a hit read column 0 (`?`) and return it without ever driving `fetch`;
on a miss drive `fetch` (`.await?`), then run the `INSERT` (`?`) against the
table state `sIns` current at that moment — `sIns` differs from the
looked-up state `s` only when a concurrent writer to the same file intervenes
between the lookup and the insert — and return the fetched bytes.
Returns the outcome, the resulting table, and how many times the fetch
strategy was driven. -/
def get (env : SqlEnv) (s sIns : Storage) (key : String)
    (fetch : Except String Bytes) : GetOutcome × Storage × Nat :=
  if env.prepareFails then (.err .prepareFailure, s, 0)
  else if env.queryBindFails then (.panicked, s, 0)
  else if env.rowStepFails then (.err .rowStepFailure, s, 0)
  else
    match lookup s key with
    | some v =>
        if env.columnFails then (.err .columnFailure, s, 0)
        else (.ok v, s, 0)
    | none =>
        match fetch with
        | .error e => (.err (.fetchFailure e), s, 1)
        | .ok v =>
            match insert sIns key v with
            | none => (.err .uniqueViolation, sIns, 1)
            | some s' =>
                if env.insertIoFails then (.err .insertIoFailure, sIns, 1)
                else (.ok v, s', 1)

/-- `get` as executed by a single cache instance over a reliable storage
engine with no concurrent writer: the `INSERT` sees exactly the table the
`SELECT` saw. -/
def getSeq (s : Storage) (key : String) (fetch : Except String Bytes) :
    GetOutcome × Storage × Nat :=
  get .reliable s s key fetch

/-- `n` successive `getSeq` calls on the same key; `fs i` is the fetch
strategy passed to the `i`-th call.  Returns the list of outcomes, the final
table, and the total number of strategy invocations across all calls. -/
def getSeqN : Nat → Storage → String → (Nat → Except String Bytes) →
    List GetOutcome × Storage × Nat
  | 0, s, _, _ => ([], s, 0)
  | n + 1, s, key, fs =>
      let r := getSeq s key (fs 0)
      let rest := getSeqN n r.2.1 key (fun i => fs (i + 1))
      (r.1 :: rest.1, rest.2.1, r.2.2 + rest.2.2)

/-- `ResponseCache::new` (src/lib.rs lines 11-20): open the database file at
the path, creating an empty one when absent (`file = none`), then run
`CREATE TABLE IF NOT EXISTS cached (key TEXT PRIMARY KEY, value BLOB)`,
which is idempotent: an existing table and all its rows are left untouched.
The two flags model failure of the open and of the schema statement. -/
def ResponseCache.new (openFails schemaFails : Bool) (file : Option Storage) :
    Except CacheError Storage :=
  if openFails then .error .openFailure
  else if schemaFails then .error .schemaFailure
  else .ok (file.getD Storage.empty)

/-- The `PRIMARY KEY` invariant: no two rows of the table share a key. -/
def Storage.keysNodup (s : Storage) : Prop :=
  (s.rows.map Row.key).Nodup

instance (s : Storage) : Decidable s.keysNodup :=
  inferInstanceAs (Decidable (List.Nodup _))

/-! ## Helper lemmas -/

theorem find?_eq_none_of_lookup_none (s : Storage) (k : String)
    (h : lookup s k = none) :
    s.rows.find? (fun r => r.key == k) = none := by
  unfold lookup at h
  cases hf : s.rows.find? (fun r => r.key == k) with
  | none => rfl
  | some r => rw [hf] at h; simp at h

theorem keyPresent_false_of_lookup_none (s : Storage) (k : String)
    (h : lookup s k = none) : keyPresent s k = false := by
  unfold keyPresent
  rw [find?_eq_none_of_lookup_none s k h]
  rfl

theorem not_mem_keys_of_lookup_none (s : Storage) (k : String)
    (h : lookup s k = none) : k ∉ s.rows.map Row.key := by
  intro hmem
  have hf := find?_eq_none_of_lookup_none s k h
  rw [List.find?_eq_none] at hf
  rcases List.mem_map.mp hmem with ⟨r, hr, hk⟩
  exact hf r hr (by simp [hk])

theorem lookup_append_self (s : Storage) (k : String) (v : Bytes)
    (h : lookup s k = none) :
    lookup ⟨s.rows ++ [⟨k, v⟩]⟩ k = some v := by
  unfold lookup
  rw [List.find?_append, find?_eq_none_of_lookup_none s k h]
  simp [List.find?]

theorem lookup_append_ne (s : Storage) (k k' : String) (v : Bytes)
    (h : ¬ k = k') :
    lookup ⟨s.rows ++ [⟨k, v⟩]⟩ k' = lookup s k' := by
  unfold lookup
  rw [List.find?_append]
  cases hf : s.rows.find? (fun r => r.key == k') with
  | none =>
    have hb : (k == k') = false := by simp [h]
    simp [List.find?, Option.or, hb]
  | some r => simp [Option.or]

theorem getSeq_hit (s : Storage) (key : String) (v : Bytes)
    (h : lookup s key = some v) (f : Except String Bytes) :
    getSeq s key f = (.ok v, s, 0) := by
  simp [getSeq, get, SqlEnv.reliable, h]

theorem getSeq_miss_ok (s : Storage) (key : String) (v : Bytes)
    (h : lookup s key = none) :
    getSeq s key (.ok v) = (.ok v, ⟨s.rows ++ [⟨key, v⟩]⟩, 1) := by
  simp [getSeq, get, SqlEnv.reliable, h, insert,
    keyPresent_false_of_lookup_none s key h]

theorem getSeq_miss_err (s : Storage) (key : String) (e : String)
    (h : lookup s key = none) :
    getSeq s key (.error e) = (.err (.fetchFailure e), s, 1) := by
  simp [getSeq, get, SqlEnv.reliable, h]

/-- With no concurrent writer (the insert sees the looked-up table), a `get`
call either leaves the table exactly as it was, or — only on a miss with a
successful fetch — appends exactly the one new row. -/
theorem get_state_cases (env : SqlEnv) (s : Storage) (key : String)
    (fetch : Except String Bytes) :
    (get env s s key fetch).2.1 = s ∨
    ∃ v, lookup s key = none ∧ fetch = .ok v ∧
      (get env s s key fetch).2.1 = ⟨s.rows ++ [⟨key, v⟩]⟩ := by
  by_cases hp : env.prepareFails
  · left; simp [get, hp]
  · by_cases hq : env.queryBindFails
    · left; simp [get, hp, hq]
    · by_cases hr : env.rowStepFails
      · left; simp [get, hp, hq, hr]
      · cases hl : lookup s key with
        | some v =>
          left
          by_cases hc : env.columnFails <;> simp [get, hp, hq, hr, hl, hc]
        | none =>
          cases fetch with
          | error e => left; simp [get, hp, hq, hr, hl]
          | ok v =>
            have hkp := keyPresent_false_of_lookup_none s key hl
            by_cases hi : env.insertIoFails
            · left; simp [get, hp, hq, hr, hl, insert, hkp, hi]
            · right
              exact ⟨v, rfl, rfl, by simp [get, hp, hq, hr, hl, insert, hkp, hi]⟩

/-! ## Claim theorems -/

/-- Claim C1: for every key already present in storage, every `get` call —
indeed any number `n` of successive calls, with arbitrary fetch strategies —
returns the stored value, never drives any strategy (zero total invocations),
and leaves the table unchanged. -/
theorem C1_hit_never_invokes (s : Storage) (key : String) (v : Bytes)
    (h : lookup s key = some v) :
    ∀ (n : Nat) (fs : Nat → Except String Bytes),
      getSeqN n s key fs = (List.replicate n (GetOutcome.ok v), s, 0) := by
  intro n
  induction n with
  | zero => intro fs; rfl
  | succ n ih =>
    intro fs
    simp [getSeqN, getSeq_hit s key v h, ih, List.replicate]

theorem C1_hit_never_invokes_witness :
    lookup ⟨[⟨"k", [49]⟩]⟩ "k" = some [49] ∧
    getSeqN 3 ⟨[⟨"k", [49]⟩]⟩ "k" (fun _ => .error "boom") =
      (List.replicate 3 (GetOutcome.ok [49]), ⟨[⟨"k", [49]⟩]⟩, 0) :=
  ⟨rfl, C1_hit_never_invokes ⟨[⟨"k", [49]⟩]⟩ "k" [49] rfl 3 (fun _ => .error "boom")⟩

/-- Claim C2: for every key absent from storage, when the fetch strategy
succeeds with `v`, `get` drives the strategy exactly once, performs exactly
one durable write appending the row `(key, v)`, returns `v`, and a subsequent
lookup for the same key finds `v`. -/
theorem C2_miss_computes_once_and_persists (s : Storage) (key : String)
    (v : Bytes) (h : lookup s key = none) :
    getSeq s key (.ok v) = (.ok v, ⟨s.rows ++ [⟨key, v⟩]⟩, 1) ∧
    lookup ⟨s.rows ++ [⟨key, v⟩]⟩ key = some v :=
  ⟨getSeq_miss_ok s key v h, lookup_append_self s key v h⟩

theorem C2_miss_computes_once_and_persists_witness :
    lookup Storage.empty "k" = none ∧
    (getSeq Storage.empty "k" (.ok [49]) = (.ok [49], ⟨[⟨"k", [49]⟩]⟩, 1) ∧
     lookup ⟨[⟨"k", [49]⟩]⟩ "k" = some [49]) :=
  ⟨rfl, C2_miss_computes_once_and_persists Storage.empty "k" [49] rfl⟩

/-- Claim C3: for every key absent from storage, when the fetch strategy
fails with `e`, `get` propagates that failure (after driving the strategy the
one time) and leaves the table completely unchanged: no row is inserted. -/
theorem C3_fetch_failure_leaves_storage_unchanged (s : Storage) (key : String)
    (e : String) (h : lookup s key = none) :
    getSeq s key (.error e) = (.err (.fetchFailure e), s, 1) :=
  getSeq_miss_err s key e h

theorem C3_fetch_failure_leaves_storage_unchanged_witness :
    lookup Storage.empty "k" = none ∧
    getSeq Storage.empty "k" (.error "boom") =
      (.err (.fetchFailure "boom"), Storage.empty, 1) :=
  ⟨rfl, C3_fetch_failure_leaves_storage_unchanged Storage.empty "k" "boom" rfl⟩

/-- Claim C4: for every key absent at lookup time, when the fetch strategy
succeeds with `v` but the `INSERT` then fails — a uniqueness violation
because a concurrent writer made the key present in the table `sIns` the
insert observes, or a plain insert I/O failure — `get` returns an error to
the caller rather than the computed value, although the strategy itself
succeeded. -/
theorem C4_insert_failure_propagates (s sIns : Storage) (key : String)
    (v : Bytes) (h : lookup s key = none) (hp : keyPresent sIns key = true) :
    get .reliable s sIns key (.ok v) = (.err .uniqueViolation, sIns, 1) ∧
    get .insertIoOnly s s key (.ok v) = (.err .insertIoFailure, s, 1) := by
  constructor
  · simp [get, SqlEnv.reliable, h, insert, hp]
  · simp [get, SqlEnv.insertIoOnly, h, insert,
      keyPresent_false_of_lookup_none s key h]

theorem C4_insert_failure_propagates_witness :
    lookup Storage.empty "k" = none ∧
    keyPresent ⟨[⟨"k", [50]⟩]⟩ "k" = true ∧
    (get .reliable Storage.empty ⟨[⟨"k", [50]⟩]⟩ "k" (.ok [49]) =
        (.err .uniqueViolation, ⟨[⟨"k", [50]⟩]⟩, 1) ∧
     get .insertIoOnly Storage.empty Storage.empty "k" (.ok [49]) =
        (.err .insertIoFailure, Storage.empty, 1)) :=
  ⟨rfl, rfl,
    C4_insert_failure_propagates Storage.empty ⟨[⟨"k", [50]⟩]⟩ "k" [49] rfl rfl⟩

/-- Claim C5: after a successful miss-driven `get`, constructing a new cache
instance over the same file succeeds and preserves the rows (`CREATE TABLE IF
NOT EXISTS` is idempotent), and `get` on the new instance returns the stored
value without driving any strategy — for every strategy, including one that
would fail if driven; opening over existing data any number of times always
yields the same durable rows. -/
theorem C5_durable_across_reopen (s : Storage) (key : String) (v : Bytes)
    (h : lookup s key = none) :
    getSeq s key (.ok v) = (.ok v, ⟨s.rows ++ [⟨key, v⟩]⟩, 1) ∧
    ResponseCache.new false false (some ⟨s.rows ++ [⟨key, v⟩]⟩) =
      .ok ⟨s.rows ++ [⟨key, v⟩]⟩ ∧
    (∀ f : Except String Bytes,
      getSeq ⟨s.rows ++ [⟨key, v⟩]⟩ key f = (.ok v, ⟨s.rows ++ [⟨key, v⟩]⟩, 0)) ∧
    (∀ t : Storage, ResponseCache.new false false (some t) = .ok t) :=
  ⟨getSeq_miss_ok s key v h, rfl,
   fun f => getSeq_hit _ key v (lookup_append_self s key v h) f,
   fun _ => rfl⟩

theorem C5_durable_across_reopen_witness :
    lookup Storage.empty "1" = none ∧
    (getSeq Storage.empty "1" (.ok [49]) = (.ok [49], ⟨[⟨"1", [49]⟩]⟩, 1) ∧
     ResponseCache.new false false (some ⟨[⟨"1", [49]⟩]⟩) = .ok ⟨[⟨"1", [49]⟩]⟩ ∧
     (∀ f : Except String Bytes,
        getSeq ⟨[⟨"1", [49]⟩]⟩ "1" f = (.ok [49], ⟨[⟨"1", [49]⟩]⟩, 0)) ∧
     (∀ t : Storage, ResponseCache.new false false (some t) = .ok t)) :=
  ⟨rfl, C5_durable_across_reopen Storage.empty "1" [49] rfl⟩

/-- Claim C6: for every byte sequence `v` — including the empty sequence and
sequences with embedded zero bytes — storing `v` through a miss-driven `get`
and retrieving it through a subsequent hit-driven `get` on the same key
returns `v` itself, bit for bit, with no transformation. -/
theorem C6_byte_exact_round_trip (s : Storage) (key : String) (v : Bytes)
    (h : lookup s key = none) :
    (getSeq s key (.ok v)).1 = .ok v ∧
    ∀ f : Except String Bytes,
      (getSeq (getSeq s key (.ok v)).2.1 key f).1 = .ok v := by
  rw [getSeq_miss_ok s key v h]
  exact ⟨rfl, fun f => by
    rw [getSeq_hit _ key v (lookup_append_self s key v h) f]⟩

theorem C6_byte_exact_round_trip_witness :
    (lookup Storage.empty "k" = none ∧
     ((getSeq Storage.empty "k" (.ok [])).1 = .ok [] ∧
      ∀ f : Except String Bytes,
        (getSeq (getSeq Storage.empty "k" (.ok [])).2.1 "k" f).1 = .ok [])) ∧
    (lookup Storage.empty "z" = none ∧
     ((getSeq Storage.empty "z" (.ok [0, 65, 0])).1 = .ok [0, 65, 0] ∧
      ∀ f : Except String Bytes,
        (getSeq (getSeq Storage.empty "z" (.ok [0, 65, 0])).2.1 "z" f).1 =
          .ok [0, 65, 0])) :=
  ⟨⟨rfl, C6_byte_exact_round_trip Storage.empty "k" [] rfl⟩,
   ⟨rfl, C6_byte_exact_round_trip Storage.empty "z" [0, 65, 0] rfl⟩⟩

/-- Claim C7: the table satisfies, and both operations preserve, the
invariant of at most one row per key; no `get` call — whatever the storage
engine does and whatever the strategy returns — ever modifies or removes an
existing row (a key present with value `v` stays present with value `v`), and
reopening preserves every row, so the only per-key transition is absent to
present. -/
theorem C7_uniqueness_and_immutability (env : SqlEnv) (s : Storage)
    (key : String) (fetch : Except String Bytes) (hnd : s.keysNodup) :
    (get env s s key fetch).2.1.keysNodup ∧
    (∀ k v, lookup s k = some v → lookup (get env s s key fetch).2.1 k = some v) ∧
    ResponseCache.new false false (some s) = .ok s := by
  refine ⟨?_, ?_, rfl⟩
  · rcases get_state_cases env s key fetch with hc | ⟨v, hnone, _, hc⟩
    · rw [hc]; exact hnd
    · rw [hc]
      unfold Storage.keysNodup at hnd ⊢
      simp only [List.map_append, List.map_cons, List.map_nil]
      rw [List.nodup_append]
      refine ⟨hnd, List.nodup_singleton key, ?_⟩
      intro a ha hb
      simp only [List.mem_singleton] at hb
      subst hb
      exact not_mem_keys_of_lookup_none s a hnone ha
  · rcases get_state_cases env s key fetch with hc | ⟨v, hnone, _, hc⟩
    · rw [hc]; exact fun k v hv => hv
    · rw [hc]
      intro k w hw
      have hne : ¬ key = k := by
        intro e; subst e; rw [hnone] at hw; cases hw
      rw [lookup_append_ne s key k v hne]
      exact hw

theorem C7_uniqueness_and_immutability_witness :
    Storage.keysNodup ⟨[⟨"a", [1]⟩]⟩ ∧
    ((get .reliable ⟨[⟨"a", [1]⟩]⟩ ⟨[⟨"a", [1]⟩]⟩ "b" (.ok [2])).2.1.keysNodup ∧
     (∀ k v, lookup ⟨[⟨"a", [1]⟩]⟩ k = some v →
        lookup (get .reliable ⟨[⟨"a", [1]⟩]⟩ ⟨[⟨"a", [1]⟩]⟩ "b" (.ok [2])).2.1 k =
          some v) ∧
     ResponseCache.new false false (some ⟨[⟨"a", [1]⟩]⟩) = .ok ⟨[⟨"a", [1]⟩]⟩) :=
  ⟨by decide,
   C7_uniqueness_and_immutability .reliable ⟨[⟨"a", [1]⟩]⟩ "b" (.ok [2]) (by decide)⟩

/-- Claim C8 (code bug): the spec's propagation policy says every failure of
a `get` call is surfaced to the caller as a returned error, but the code
calls `.unwrap()` on the bound query at src/lib.rs line 31: when that storage
step fails, the call aborts by panic instead of returning an error value. -/
theorem C8_query_unwrap_panics :
    get .queryBindOnly Storage.empty Storage.empty "1" (.ok [49]) =
      (.panicked, Storage.empty, 0) := rfl

/-- Claim C10: a `get` call for `key` never creates, modifies, or removes the
row of any other key `k'`: whether the call hits, misses, succeeds, or fails
(under any storage-engine failures), the presence and value of every other
key are unchanged. -/
theorem C10_frame_other_keys_unchanged (env : SqlEnv) (s : Storage)
    (key k' : String) (fetch : Except String Bytes) (hne : k' ≠ key) :
    lookup (get env s s key fetch).2.1 k' = lookup s k' := by
  rcases get_state_cases env s key fetch with hc | ⟨v, _, _, hc⟩
  · rw [hc]
  · rw [hc, lookup_append_ne s key k' v (fun e => hne e.symm)]

theorem C10_frame_other_keys_unchanged_witness :
    ("a" : String) ≠ "b" ∧
    lookup (get .reliable ⟨[⟨"a", [1]⟩]⟩ ⟨[⟨"a", [1]⟩]⟩ "b" (.ok [2])).2.1 "a" =
      lookup ⟨[⟨"a", [1]⟩]⟩ "a" :=
  ⟨by decide,
   C10_frame_other_keys_unchanged .reliable ⟨[⟨"a", [1]⟩]⟩ "b" "a" (.ok [2])
     (by decide)⟩

end CacheResponse
